import Mathlib

/-!
Verification development for the xinu-style shell and script interpreter
(`interpreter.h`, `shell.h`, `script_interpreter.c`).

The C sources are shallowly embedded: C strings become `List Char` (or
`String` where the code treats them atomically), fixed-capacity arrays with
`defined` flags become `List`s of slot records scanned front to back exactly
as the C `for` loops do, and every fallible operation returns its C status
code (`OK = 1`, `SYSERR = -1`) together with the updated state.  C `%` on
nonnegative `int32_t` operands is modelled with `Int.tmod`, which has C99
truncation semantics.  Byte-level concerns that no claim depends on are noted
in comments where they are elided (`strncpy` truncation of stored strings,
`int32_t` wraparound inside numeric literal accumulation, allocation
failure of `getmem`).
-/

set_option maxRecDepth 4096

/-- Status codes from `interpreter.h`: `#define OK 1`. -/
def OK : Int := 1

/-- C: `#define SYSERR -1`. -/
def SYSERR : Int := -1

/-- C: `#define SHELL_OK 0`. -/
def SHELL_OK : Int := 0

/-- C: `#define SHELL_ERROR 1`. -/
def SHELL_ERROR : Int := 1

/-- C: `#define SHELL_NOT_FOUND 127`. -/
def SHELL_NOT_FOUND : Int := 127

/-- Updating in place through a pointer returned by a front-to-back table
scan is modelled by rewriting the first list element satisfying the scan's
predicate. -/
def updateFirst (p : α → Bool) (f : α → α) : List α → List α
  | [] => []
  | x :: xs => if p x then f x :: xs else x :: updateFirst p f xs

/-- C: `' '` or `'\t'`, the whitespace skipped by the C parsing loops. -/
def isSpaceTab (c : Char) : Bool := c == ' ' || c == Char.ofNat 9

/-- The tab character (written via its code point to keep character
literals simple). -/
def tabChar : Char := Char.ofNat 9

/-- The backslash character. -/
def bslash : Char := Char.ofNat 92

/-- The single-quote character. -/
def squote : Char := Char.ofNat 39

/-! ## History ring buffer (`shell_history_add` / `shell_history_get`)

`shell_state.history` is a 50-slot ring with `history_count` and
`history_index` (`int32_t`).  The slot array is modelled as a total function
`Nat → String`; only indices `0..49` are ever produced by the (modelled)
code.  The `number`/`timestamp` fields of `history_entry_t` play no role in
any claim and are elided, as is the `strncpy` truncation of commands to
`SHELL_MAX_LINE - 1` bytes (commands are read from a `SHELL_MAX_LINE`
buffer, so they are always shorter). -/

structure HistState where
  history : Nat → String
  history_count : Int
  history_index : Int

/-- C: `shell_history_add` (script_interpreter.c, shell part): ignore empty
commands; ignore a command equal to the entry at
`(history_index - 1 + 50) % 50` when `history_count > 0`; otherwise store at
`history_index`, advance the index mod 50, and bump the count up to 50. -/
def shell_history_add (cmd : String) (s : HistState) : HistState :=
  if cmd = "" then s
  else if 0 < s.history_count ∧
      s.history ((s.history_index - 1 + 50).tmod 50).toNat = cmd then s
  else
    { history := fun n => if n = s.history_index.toNat then cmd else s.history n
      history_index := (s.history_index + 1).tmod 50
      history_count :=
        if s.history_count < 50 then s.history_count + 1 else s.history_count }

/-- C: `shell_history_get`: `NULL` out of `[0, history_count)`, else the slot at
`(history_index - history_count + index + 50) % 50`. -/
def shell_history_get (i : Int) (s : HistState) : Option String :=
  if i < 0 ∨ s.history_count ≤ i then none
  else some (s.history ((s.history_index - s.history_count + i + 50).tmod 50).toNat)

/-- Adding a list of commands in order (repeated calls to
`shell_history_add`). -/
def shell_history_addAll (cmds : List String) (s : HistState) : HistState :=
  cmds.foldl (fun st c => shell_history_add c st) s

/-- The state `shell_init` / `shell_history_clear` leave the history in:
count and write index zero (stored strings are irrelevant because the
dedup check requires `history_count > 0`). -/
def histInit : HistState :=
  { history := fun _ => "", history_count := 0, history_index := 0 }

/-- Abstraction relation for the ring buffer: after the commands `l` have
all been appended (none dropped by the dedup check), the count is
`min |l| 50`, the write index is `|l| mod 50`, and the last
`min |l| 50` commands sit at their positions mod 50. -/
def histInv (l : List String) (s : HistState) : Prop :=
  s.history_count = ((min l.length 50 : Nat) : Int) ∧
  s.history_index = ((l.length % 50 : Nat) : Int) ∧
  ∀ j : Nat, j < l.length → l.length ≤ j + 50 → s.history (j % 50) = l.getD j ""

/-! ## Job table (`shell.h`, `shell_bg` / `shell_fg`) -/

/-- C: `job_state_t`. -/
inductive JobState where
  | running
  | stopped
  | done
  | killed
deriving DecidableEq

/-- C: `shell_job_t`. -/
structure ShellJob where
  id : Int
  pid : Int
  pgid : Int
  state : JobState
  command : String
  foreground : Bool
deriving DecidableEq

/-- C: `shell_job_find_by_pid`: first slot of the 32-entry table whose `pid`
matches. -/
def shell_job_find_by_pid (jobs : List ShellJob) (pid : Int) : Option ShellJob :=
  jobs.find? (fun j => j.pid == pid)

/-- C: `shell_bg`: `SYSERR` when no slot has the pid; if the job is `Stopped`,
resume it (external call, no table effect) and mark it `Running`, background;
any other state is left untouched, returning `OK`. -/
def shell_bg (jobs : List ShellJob) (pid : Int) : Int × List ShellJob :=
  match shell_job_find_by_pid jobs pid with
  | none => (SYSERR, jobs)
  | some j =>
    if j.state = JobState.stopped then
      (OK, updateFirst (fun j => j.pid == pid)
        (fun j => { j with state := JobState.running, foreground := false }) jobs)
    else (OK, jobs)

/-- C: `shell_fg`: `SYSERR` when no slot has the pid; otherwise resume if
`Stopped` (external call) and then unconditionally set the job `Running`
and foreground.  The subsequent `shell_wait_job` busy-polls (`yield`) and
never writes the table, so the table effect of `shell_fg` is exactly this
update. -/
def shell_fg (jobs : List ShellJob) (pid : Int) : Int × List ShellJob :=
  match shell_job_find_by_pid jobs pid with
  | none => (SYSERR, jobs)
  | some _ =>
    (OK, updateFirst (fun j => j.pid == pid)
      (fun j => { j with state := JobState.running, foreground := true }) jobs)

/-! ## Command registry and dispatch (`shell_execute`, lines 1164–1173) -/

/-- C: `shell_command_t`.  The handler receives `(argc, argv)`. -/
structure ShellCommand where
  name : String
  description : String
  func : Int → List String → Int
  builtin : Bool

/-- The part of `shell_state_t` (plus the `shell_commands` global) that the
dispatcher touches. -/
structure ShellSt where
  commands : List ShellCommand
  last_exit : Int

/-- C: `shell_register_command`: `SYSERR` past 128 entries, else append. -/
def shell_register_command (st : ShellSt) (name desc : String)
    (func : Int → List String → Int) : Int × ShellSt :=
  if 128 ≤ st.commands.length then (SYSERR, st)
  else (OK, { st with commands := st.commands ++ [⟨name, desc, func, true⟩] })

/-- C: `shell_find_command`: linear scan, first registered wins. -/
def shell_find_command (st : ShellSt) (name : String) : Option ShellCommand :=
  st.commands.find? (fun c => c.name == name)

/-- The dispatch step of `shell_execute` on an already-expanded, parsed,
nonempty argument vector: look up `argv[0]`; on a hit run the handler with
`(argc, argv)` and store its return value in `last_exit`; on a miss print
`command not found` (I/O not modelled) and store `SHELL_NOT_FOUND`. -/
def shell_dispatch (st : ShellSt) (argv : List String) : Int × ShellSt :=
  match shell_find_command st (argv.headD "") with
  | some cmd =>
    let r := cmd.func argv.length argv
    (r, { st with last_exit := r })
  | none => (SHELL_NOT_FOUND, { st with last_exit := SHELL_NOT_FOUND })

/-! ## Lexer/splitter (`shell_parse_line`)

The C routine splits in place, erasing quotes/backslashes with `memmove`
and NUL-terminating tokens.  The model returns the list of token contents;
the slot writes `argv[0..argc-1]` and the terminator `argv[argc] = NULL`
are recovered by `shell_parse_writes`. -/

/-- The inner token loop of `shell_parse_line`: returns the token's final
bytes and the input remaining after the token (the single terminating
whitespace byte, when present, is consumed — `*p++ = '\0'`).
`inq`/`qc` are `in_quote`/`quote_char`; `in_quote` is always false when a
token starts (the loop only breaks out of quotes), so the stale
`quote_char` from a previous token is never consulted. -/
def tokenLoop (inq : Bool) (qc : Char) (input : List Char) : List Char × List Char :=
  match input with
  | [] => ([], [])
  | c :: rest =>
    if c == bslash then
      match rest with
      | [] =>
        -- backslash with `*(p+1) == '\0'`: not an escape; kept literally,
        -- then the loop exits at end of string
        ([bslash], [])
      | d :: rest2 =>
        -- escape: remove the backslash, keep the next char, even in quotes
        let tr := tokenLoop inq qc rest2
        (d :: tr.1, tr.2)
    else if c == '"' || c == squote then
      if !inq then tokenLoop true c rest
      else if c == qc then tokenLoop false qc rest
      else
        -- the other quote style inside quotes is an ordinary character
        let tr := tokenLoop inq qc rest
        (c :: tr.1, tr.2)
    else if !inq && isSpaceTab c then ([], rest)
    else
      let tr := tokenLoop inq qc rest
      (c :: tr.1, tr.2)

/-- The outer loop of `shell_parse_line`.  `fuel` is an upper bound on the
remaining input length (each iteration consumes at least one character, so
`fuel = input.length` at the top level is enough; the `0` branch is only
reached with empty input). -/
def parseLoop (maxArgs : Int) : Nat → Int → List Char → List (List Char)
  | 0, _, _ => []
  | fuel + 1, argc, input =>
    if input ≠ [] ∧ argc < maxArgs - 1 then
      match input.dropWhile isSpaceTab with
      | [] => []
      | c :: rest1 =>
        if c == '#' then []
        else
          let tr := tokenLoop false (Char.ofNat 0) (c :: rest1)
          tr.1 :: parseLoop maxArgs fuel (argc + 1) tr.2
    else []

/-- C: `shell_parse_line(line, argv, max_args)`: the tokens written to `argv`. -/
def shell_parse_line (line : List Char) (max_args : Int) : List (List Char) :=
  parseLoop max_args line.length 0 line

/-- The `argv` slots `shell_parse_line` writes, in order: one slot per token
followed by the `argv[argc] = NULL` terminator. -/
def shell_parse_writes (line : List Char) (max_args : Int) : List (Option (List Char)) :=
  (shell_parse_line line max_args).map some ++ [none]

/-! ## Glob / regex matcher (`expr_match_glob`, `expr_match_regex`) -/

mutual

/-- C: `expr_match_glob`: the recursive `*`/`?` wildcard matcher.  The final
fall-through skips trailing `*`s and requires both pattern and string to be
exhausted. -/
def expr_match_glob (p s : List Char) : Bool :=
  match p, s with
  | c :: p1, d :: s1 =>
    if c = '*' then
      if p1 = [] then true
      else globStar p1 (d :: s1)
    else if c = '?' then expr_match_glob p1 s1
    else if c = d then expr_match_glob p1 s1
    else false
  | p, s => decide ((p.dropWhile (fun c => c = '*')) = [] ∧ s = [])
termination_by (p.length, s.length, 0)

/-- The `while (*s != '\0')` backtracking loop inside the `*` case of
`expr_match_glob`: try every nonempty suffix of the string. -/
def globStar (p s : List Char) : Bool :=
  match s with
  | [] => false
  | d :: s1 => expr_match_glob p (d :: s1) || globStar p s1
termination_by (p.length, s.length, 1)

end

/-- C: `expr_match_regex` simply calls `expr_match_glob`. -/
def expr_match_regex (p s : List Char) : Bool :=
  expr_match_glob p s

/-! ## Script context (`script_context_t` and the `script_*` operations)

Tables are lists of slot records scanned front to back; `script_create_context`
allocates 128/64/64 slots whose contents are whatever `getmem` returned, then
calls `script_reset_context`, which clears only the `defined` flags (and the
function bodies), exactly as the C does.  The `loop_stack`/`call_stack`
arrays are lists read/written by index; their bounds (`SCRIPT_MAX_STACK`)
appear in the `call_sp`/`loop_sp` guards. -/

/-- C: `var_type_t`. -/
inductive VarType where
  | tInt
  | tString
  | tFloat
  | tArray
  | tUndefined
deriving DecidableEq

/-- The value union of `script_var_t`.  `double float_val` and
`void *array_val` payloads are not representable in the embedding (floating
point / raw pointers); no claim depends on them. -/
inductive SVal where
  | vInt (n : Int)
  | vStr (s : String)
  | vFloat
  | vArr
deriving DecidableEq

/-- Reads `int_val` from the union; the C would reinterpret raw bytes on a
tag mismatch, but every read in the sources is guarded by a type check. -/
def SVal.intD : SVal → Int
  | .vInt n => n
  | _ => 0

/-- C: `script_var_t`.  `strncpy` truncation of names to 63 bytes is elided
(callers inside `execute_line` check the length first). -/
structure ScriptVar where
  name : String
  type : VarType
  value : SVal
  readonly : Bool
  exported : Bool
  defined : Bool
deriving DecidableEq

/-- C: `script_func_t`; the owned `body` buffer is just a `String` here. -/
structure ScriptFunc where
  name : String
  body : String
  num_params : Int
  defined : Bool
deriving DecidableEq

/-- C: `script_label_t`. -/
structure ScriptLabel where
  name : String
  line_num : Int
  defined : Bool
deriving DecidableEq

/-- C: `script_context_t`. -/
structure ScriptCtx where
  vars : List ScriptVar
  funcs : List ScriptFunc
  labels : List ScriptLabel
  var_count : Int
  func_count : Int
  label_count : Int
  line_num : Int
  running : Bool
  exit_code : Int
  loop_stack : List Int
  loop_sp : Int
  call_stack : List Int
  call_sp : Int
  stdin_fd : Int
  stdout_fd : Int
  stderr_fd : Int
deriving DecidableEq

/-- C: `script_reset_context`: clear the `defined` flags (variables also lose
type/readonly/exported; function bodies are freed), zero the counts, stacks
and execution state, restore default fds.  Slot names/values and the stack
array contents are left as they were, as in the C. -/
def script_reset_context (ctx : ScriptCtx) : ScriptCtx :=
  { ctx with
    vars := ctx.vars.map fun v =>
      { v with defined := false, type := VarType.tUndefined,
               readonly := false, exported := false }
    funcs := ctx.funcs.map fun f => { f with defined := false, body := "" }
    labels := ctx.labels.map fun l => { l with defined := false }
    var_count := 0, func_count := 0, label_count := 0
    line_num := 0, running := false, exit_code := 0
    loop_sp := 0, call_sp := 0
    stdin_fd := 0, stdout_fd := 1, stderr_fd := 2 }

/-- C: `find_var`: first defined slot with the name. -/
def find_var (ctx : ScriptCtx) (name : String) : Option ScriptVar :=
  ctx.vars.find? (fun v => v.defined && v.name == name)

/-- Slot predicate used by `find_var` / the write-back through its
pointer. -/
def varMatch (name : String) (v : ScriptVar) : Bool :=
  v.defined && v.name == name

/-- C: `script_set_var`: `create_var` returns the existing slot or claims the
first free one (`SYSERR` when all 128 are taken); a readonly slot rejects
the write; otherwise `var->type = type` and then the union field for that
type is written — the `VAR_TYPE_UNDEFINED` default branch returns `SYSERR`
*after* the type field was already overwritten.  (`NULL` argument guards
are vacuous here.) -/
def script_set_var (ctx : ScriptCtx) (name : String) (ty : VarType) (v : SVal) :
    Int × ScriptCtx :=
  match find_var ctx name with
  | some var =>
    if var.readonly then (SYSERR, ctx)
    else if ty = VarType.tUndefined then
      (SYSERR, { ctx with vars := (updateFirst (varMatch name)
        (fun w => { w with type := ty }) ctx.vars) })
    else
      (OK, { ctx with vars := (updateFirst (varMatch name)
        (fun w => { w with type := ty, value := v }) ctx.vars) })
  | none =>
    if ctx.vars.any (fun w => !w.defined) then
      -- fresh slot: defined, name copied, readonly/exported false (so the
      -- readonly check cannot fire), then type/value written as above
      if ty = VarType.tUndefined then
        (SYSERR, { ctx with
          vars := (updateFirst (fun w => !w.defined)
            (fun w => { w with defined := true, name := name,
                               type := ty, readonly := false, exported := false })
            ctx.vars)
          var_count := ctx.var_count + 1 })
      else
        (OK, { ctx with
          vars := (updateFirst (fun w => !w.defined)
            (fun w => { w with defined := true, name := name,
                               type := ty, value := v,
                               readonly := false, exported := false })
            ctx.vars)
          var_count := ctx.var_count + 1 })
    else (SYSERR, ctx)

/-- C: `script_get_var` is a pure read; the claims only need the lookup
(`find_var`) itself, which is exported through this wrapper. -/
def script_get_var (ctx : ScriptCtx) (name : String) : Option (VarType × SVal) :=
  match find_var ctx name with
  | some var => some (var.type, var.value)
  | none => none

/-- C: `script_unset_var`: `SYSERR` on not-found or readonly, else clear the
slot's `defined` flag and decrement `var_count`. -/
def script_unset_var (ctx : ScriptCtx) (name : String) : Int × ScriptCtx :=
  match find_var ctx name with
  | none => (SYSERR, ctx)
  | some var =>
    if var.readonly then (SYSERR, ctx)
    else
      (OK, { ctx with
        vars := (updateFirst (varMatch name)
          (fun w => { w with defined := false }) ctx.vars)
        var_count := ctx.var_count - 1 })

/-- C: `script_var_exists`. -/
def script_var_exists (ctx : ScriptCtx) (name : String) : Bool :=
  (find_var ctx name).isSome

/-- C: `find_func`. -/
def find_func (ctx : ScriptCtx) (name : String) : Option ScriptFunc :=
  ctx.funcs.find? (fun f => f.defined && f.name == name)

/-- C: `script_define_func`: redefinition frees the old body and stores a fresh
copy; a new function takes the first free slot, `SYSERR` when all 64 are
taken.  `getmem` failure for the body copy is not modelled. -/
def script_define_func (ctx : ScriptCtx) (name body : String) (num_params : Int) :
    Int × ScriptCtx :=
  if (find_func ctx name).isSome then
    (OK, { ctx with funcs := (updateFirst (fun f => f.defined && f.name == name)
      (fun f => { f with body := body, num_params := num_params }) ctx.funcs) })
  else if ctx.funcs.any (fun f => !f.defined) then
    (OK, { ctx with
      funcs := (updateFirst (fun f => !f.defined)
        (fun f => { f with defined := true, name := name,
                           body := body, num_params := num_params }) ctx.funcs)
      func_count := ctx.func_count + 1 })
  else (SYSERR, ctx)

/-- C: `find_label`. -/
def find_label (ctx : ScriptCtx) (name : String) : Option ScriptLabel :=
  ctx.labels.find? (fun l => l.defined && l.name == name)

/-- C: `create_label`: an existing label's line number is overwritten;
otherwise the first free slot is claimed (`SYSERR` when all 64 are
taken). -/
def create_label (ctx : ScriptCtx) (name : String) (line_num : Int) :
    Int × ScriptCtx :=
  if (find_label ctx name).isSome then
    (OK, { ctx with labels := (updateFirst (fun l => l.defined && l.name == name)
      (fun l => { l with line_num := line_num }) ctx.labels) })
  else if ctx.labels.any (fun l => !l.defined) then
    (OK, { ctx with
      labels := (updateFirst (fun l => !l.defined)
        (fun l => { l with defined := true, name := name, line_num := line_num })
        ctx.labels)
      label_count := ctx.label_count + 1 })
  else (SYSERR, ctx)

/-- C: `script_goto_label`: `SYSERR` when the label has not been recorded,
else jump (`ctx->line_num = lbl->line_num`). -/
def script_goto_label (ctx : ScriptCtx) (label : String) : Int × ScriptCtx :=
  match find_label ctx label with
  | none => (SYSERR, ctx)
  | some lbl => (OK, { ctx with line_num := lbl.line_num })

/-- C: `script_break`: `SYSERR` when the loop stack is empty, else jump to the
recorded end of the current loop. -/
def script_break (ctx : ScriptCtx) : Int × ScriptCtx :=
  if ctx.loop_sp = 0 then (SYSERR, ctx)
  else (OK, { ctx with line_num := ctx.loop_stack.getD (ctx.loop_sp - 1).toNat 0 })

/-- C: `script_continue`: `SYSERR` when the loop stack is empty, else jump to
just before the start of the current loop. -/
def script_continue (ctx : ScriptCtx) : Int × ScriptCtx :=
  if ctx.loop_sp = 0 then (SYSERR, ctx)
  else (OK, { ctx with line_num := ctx.loop_stack.getD (ctx.loop_sp - 1).toNat 0 - 1 })

/-- C: `script_return`: record the exit code and stop the executor. -/
def script_return (ctx : ScriptCtx) (value : Int) : Int × ScriptCtx :=
  (OK, { ctx with exit_code := value, running := false })

/-! ## Expression evaluation (`script_eval_int`, `script_eval_bool`) -/

/-- One decimal digit's value. -/
def digitVal (c : Char) : Int := (c.toNat : Int) - ('0'.toNat : Int)

/-- The hex accumulation loop (`while (isxdigit(*p))`).  `int32_t` overflow
of `result * 16 + d` is undefined behaviour in C and not modelled; no claim
evaluates literals near `2^31`. -/
def parseHex (ds : List Char) : Int :=
  ds.foldl (fun acc c =>
    if '0' ≤ c ∧ c ≤ '9' then acc * 16 + digitVal c
    else if 'a' ≤ c ∧ c ≤ 'f' then acc * 16 + ((c.toNat : Int) - ('a'.toNat : Int) + 10)
    else if 'A' ≤ c ∧ c ≤ 'F' then acc * 16 + ((c.toNat : Int) - ('A'.toNat : Int) + 10)
    else acc) 0

/-- Is this an ASCII hex digit (`isxdigit`)? -/
def isHexDigit (c : Char) : Bool :=
  ('0' ≤ c && c ≤ '9') || ('a' ≤ c && c ≤ 'f') || ('A' ≤ c && c ≤ 'F')

/-- Accumulate digits in a base (octal / decimal loops). -/
def parseBase (base : Int) (ds : List Char) : Int :=
  ds.foldl (fun acc c => acc * base + digitVal c) 0

/-- The number-literal part of `script_eval_int`: `0x`/`0X` hex, leading-`0`
octal (only when the second character is an octal digit), else decimal. -/
def parseNumber (p : List Char) : Int :=
  match p with
  | '0' :: x :: rest =>
    if x = 'x' ∨ x = 'X' then parseHex (rest.takeWhile isHexDigit)
    else if '0' ≤ x ∧ x ≤ '7' then
      parseBase 8 ((x :: rest).takeWhile (fun c => '0' ≤ c && c ≤ '7'))
    else parseBase 10 ((('0' : Char) :: x :: rest).takeWhile Char.isDigit)
  | _ => parseBase 10 (p.takeWhile Char.isDigit)

/-- C: `script_eval_int`: skip whitespace, optional sign, then either a `$name`
variable reference (only `VAR_TYPE_INT` variables resolve, everything else
yields 0; names are alphanumeric/underscore, at most 63 characters) or a
hex/octal/decimal literal. -/
def script_eval_int (ctx : ScriptCtx) (expr : List Char) : Int :=
  let p0 := expr.dropWhile isSpaceTab
  let sp : Bool × List Char :=
    match p0 with
    | '-' :: rest => (true, rest)
    | '+' :: rest => (false, rest)
    | _ => (false, p0)
  let neg := sp.1
  match sp.2 with
  | '$' :: rest =>
    let nameChars := (rest.takeWhile (fun c => c.isAlphanum || c = '_')).take 63
    match find_var ctx (String.mk nameChars) with
    | some v =>
      if v.type = VarType.tInt then
        if neg then -(v.value.intD) else v.value.intD
      else 0
    | none => 0
  | p =>
    let r := parseNumber p
    if neg then -r else r

/-- C: `script_eval_bool`: empty (after whitespace) is false; the literals
`true`/`TRUE`/`1` and `false`/`FALSE`/`0` are compared with `strcmp` against
the whitespace-skipped remainder; anything else is `script_eval_int ≠ 0`
(evaluated on the original expression, as in the C). -/
def script_eval_bool (ctx : ScriptCtx) (expr : List Char) : Bool :=
  let p := expr.dropWhile isSpaceTab
  if p = [] then false
  else if p = "true".toList ∨ p = "TRUE".toList ∨ p = "1".toList then true
  else if p = "false".toList ∨ p = "FALSE".toList ∨ p = "0".toList then false
  else script_eval_int ctx expr ≠ 0

/-! ## The script executor (`execute_line`, `script_execute`,
`script_call_func`) -/

/-- Length of the assignment left-hand side after the
`while (len > 0 && trailing whitespace) len--` trim. -/
def trimLen (p : List Char) : Nat → Nat
  | 0 => 0
  | len + 1 => if isSpaceTab (p.getD len ' ') then trimLen p len else len + 1

/-- The keyword / bare-expression tail of `execute_line`, reached after the
label and assignment checks have both declined the (nonempty) remainder
`p`. -/
def execKeywords (ctx : ScriptCtx) (p : List Char) : Int × ScriptCtx :=
  if p.take 3 = "if ".toList then
    -- condition evaluated, no branching ("would need to track if/else")
    let _cond := script_eval_bool ctx (p.drop 3)
    (OK, ctx)
  else if p.take 6 = "while ".toList then
    let _cond := script_eval_bool ctx (p.drop 6)
    (OK, ctx)
  else if p.take 4 = "for ".toList then (OK, ctx)
  else if p = "break".toList then script_break ctx
  else if p = "continue".toList then script_continue ctx
  else if p.take 6 = "return".toList then
    let rest := (p.drop 6).dropWhile isSpaceTab
    let v := if rest = [] then 0 else script_eval_int ctx rest
    script_return ctx v
  else if p.take 5 = "goto ".toList then
    script_goto_label ctx (String.mk ((p.drop 5).dropWhile isSpaceTab))
  else
    -- bare expression, evaluated for its (nonexistent) side effects
    let _v := script_eval_int ctx p
    (OK, ctx)

/-- The assignment check of `execute_line` on the remainder `p` (after any
label handling): the first `=` not at position 0 and not preceded by
`!`/`<`/`>` makes the line an assignment; the left-hand side is trimmed of
trailing whitespace and, when shorter than 64 characters, the right-hand
side is stored as an `Int` variable when it starts with a digit or sign and
as a `String` variable otherwise (the `script_set_var` status is ignored and
`OK` returned).  A too-long left-hand side falls through to the keyword
checks, as does a non-assignment line. -/
def execAssignOrKeywords (ctx : ScriptCtx) (p : List Char) : Int × ScriptCtx :=
  match p.findIdx? (fun c => c == '=') with
  | some eidx =>
    if 0 < eidx ∧ p.getD (eidx - 1) ' ' ∉ ['!', '<', '>'] then
      let len := trimLen p eidx
      if len < 64 then
        let name := String.mk (p.take len)
        let rhs := (p.drop (eidx + 1)).dropWhile isSpaceTab
        let c0 := rhs.headD ' '
        if c0.isDigit ∨ c0 = '-' ∨ c0 = '+' then
          (OK, (script_set_var ctx name VarType.tInt (SVal.vInt (script_eval_int ctx rhs))).2)
        else
          (OK, (script_set_var ctx name VarType.tString (SVal.vStr (String.mk rhs))).2)
      else execKeywords ctx p
    else execKeywords ctx p
  | none => execKeywords ctx p

/-- C: `execute_line`: skip leading whitespace; blank/`#` lines are no-ops; a
`:` beyond the first character records a label (when the prefix is shorter
than 64 characters — the `create_label` status is ignored) and processing
continues after the colon; then the assignment and keyword checks run on
what is left. -/
def execute_line (ctx : ScriptCtx) (line : List Char) : Int × ScriptCtx :=
  let p0 := line.dropWhile isSpaceTab
  match p0 with
  | [] => (OK, ctx)
  | c :: _ =>
    if c == '#' then (OK, ctx)
    else
      match p0.findIdx? (fun c => c == ':') with
      | some idx =>
        if 0 < idx then
          let ctx1 :=
            if idx < 64 then (create_label ctx (String.mk (p0.take idx)) ctx.line_num).2
            else ctx
          let p1 := (p0.drop (idx + 1)).dropWhile isSpaceTab
          if p1 = [] then (OK, ctx1)
          else execAssignOrKeywords ctx1 p1
        else execAssignOrKeywords ctx p0
      | none => execAssignOrKeywords ctx p0

/-- C: `script_execute_line` (the `NULL` guards are vacuous here). -/
def script_execute_line (ctx : ScriptCtx) (line : List Char) : Int × ScriptCtx :=
  execute_line ctx line

/-- The `strtok_r(…, "\n", …)` / `execute_line` loop of `script_execute`:
`running` is checked before each line, the line counter is incremented, and
a non-`OK` result breaks out. -/
def execLoop (ctx : ScriptCtx) : List (List Char) → ScriptCtx
  | [] => ctx
  | l :: ls =>
    if ctx.running then
      let ctx1 := { ctx with line_num := ctx.line_num + 1 }
      let r := execute_line ctx1 l
      if r.1 = OK then execLoop r.2 ls else r.2
    else ctx

/-- Split a script into its `strtok_r`-style lines: maximal nonempty runs
between `'\n'` delimiters. -/
def scriptLines (script : String) : List (List Char) :=
  ((script.toList.splitOn (Char.ofNat 10)).filter (· ≠ []))

/-- C: `script_execute`: copy the script (pure here), set `running`, zero the
line counter, run the loop, clear `running`, and return `ctx->exit_code`. -/
def script_execute (ctx : ScriptCtx) (script : String) : Int × ScriptCtx :=
  let ctx0 := { ctx with running := true, line_num := 0 }
  let ctx1 := execLoop ctx0 (scriptLines script)
  (ctx1.exit_code, { ctx1 with running := false })

/-- The parameter-binding loop of `script_call_func`: variables `arg0`,
`arg1`, … are set as strings for `i < num_params && i < argc`. -/
def bindParams (ctx : ScriptCtx) (num_params : Int) (argv : List String) : ScriptCtx :=
  (List.range (min num_params.toNat argv.length)).foldl
    (fun c i => (script_set_var c ("arg" ++ toString i) VarType.tString
      (SVal.vStr (argv.getD i ""))).2) ctx

/-- C: `script_call_func`: find the function, push the current line number on
the call stack (`SYSERR` at 256 frames), bind `arg0…`, run the body through
`script_execute`, then pop the call stack restoring the caller's line
number. -/
def script_call_func (ctx : ScriptCtx) (name : String) (argv : List String) :
    Int × ScriptCtx :=
  match find_func ctx name with
  | none => (SYSERR, ctx)
  | some f =>
    if 256 ≤ ctx.call_sp then (SYSERR, ctx)
    else
      let ctx1 := { ctx with
        call_stack := ctx.call_stack.set ctx.call_sp.toNat ctx.line_num
        call_sp := ctx.call_sp + 1 }
      let ctx2 := bindParams ctx1 f.num_params argv
      let r := script_execute ctx2 f.body
      let ctx3 := r.2
      let ctx4 :=
        if 0 < ctx3.call_sp then
          { ctx3 with line_num := ctx3.call_stack.getD (ctx3.call_sp - 1).toNat 0
                      call_sp := ctx3.call_sp - 1 }
        else ctx3
      (r.1, ctx4)

/-- The states a `script_context_t` can be in after `script_create_context`
(malloc of arbitrary contents followed by `script_reset_context`) and any
sequence of public `script_*` operations.  The pure readers
(`script_get_var`, the evaluators) do not change the state. -/
inductive ScriptReachable : ScriptCtx → Prop where
  | reset (c : ScriptCtx) : ScriptReachable (script_reset_context c)
  | set_var (c : ScriptCtx) (n : String) (ty : VarType) (v : SVal) :
      ScriptReachable c → ScriptReachable (script_set_var c n ty v).2
  | unset_var (c : ScriptCtx) (n : String) :
      ScriptReachable c → ScriptReachable (script_unset_var c n).2
  | define_func (c : ScriptCtx) (n b : String) (np : Int) :
      ScriptReachable c → ScriptReachable (script_define_func c n b np).2
  | call_func (c : ScriptCtx) (n : String) (argv : List String) :
      ScriptReachable c → ScriptReachable (script_call_func c n argv).2
  | goto_label (c : ScriptCtx) (l : String) :
      ScriptReachable c → ScriptReachable (script_goto_label c l).2
  | brk (c : ScriptCtx) :
      ScriptReachable c → ScriptReachable (script_break c).2
  | cont (c : ScriptCtx) :
      ScriptReachable c → ScriptReachable (script_continue c).2
  | ret (c : ScriptCtx) (v : Int) :
      ScriptReachable c → ScriptReachable (script_return c v).2
  | exec_line (c : ScriptCtx) (l : List Char) :
      ScriptReachable c → ScriptReachable (script_execute_line c l).2
  | exec (c : ScriptCtx) (s : String) :
      ScriptReachable c → ScriptReachable (script_execute c s).2

/-- A concrete freshly created context: 128/64/64 zeroed slots passed
through `script_reset_context`. -/
def ctxInit : ScriptCtx :=
  script_reset_context
    { vars := List.replicate 128
        { name := "", type := VarType.tUndefined, value := SVal.vInt 0,
          readonly := false, exported := false, defined := false }
      funcs := List.replicate 64
        { name := "", body := "", num_params := 0, defined := false }
      labels := List.replicate 64 { name := "", line_num := 0, defined := false }
      var_count := 0, func_count := 0, label_count := 0
      line_num := 0, running := false, exit_code := 0
      loop_stack := List.replicate 256 0, loop_sp := 0
      call_stack := List.replicate 256 0, call_sp := 0
      stdin_fd := 0, stdout_fd := 1, stderr_fd := 2 }

/-! ## Concrete states used by the claim witnesses and counterexamples -/

/-- A one-slot job table holding a completed (`Done`) job. -/
def c1jobs : List ShellJob :=
  [{ id := 1, pid := 5, pgid := 5, state := JobState.done,
     command := "sleep 10", foreground := false }]

/-- A registry holding the single builtin `true` (handler returns
`SHELL_OK`). -/
def c4st : ShellSt :=
  { commands := [{ name := "true", description := "Return success",
                   func := fun _ _ => SHELL_OK, builtin := true }]
    last_exit := 0 }

/-- A context holding one readonly integer variable `x`. -/
def c5ctx : ScriptCtx :=
  { vars := [{ name := "x", type := VarType.tInt, value := SVal.vInt 7,
               readonly := true, exported := false, defined := true }]
    funcs := [], labels := [], var_count := 1, func_count := 0, label_count := 0
    line_num := 0, running := false, exit_code := 0
    loop_stack := [], loop_sp := 0, call_stack := [], call_sp := 0
    stdin_fd := 0, stdout_fd := 1, stderr_fd := 2 }

/-- 50 distinct non-empty commands. -/
def c2cmds : List String := (List.range 50).map (fun n => "c" ++ toString n)

/-- A 64-character label name: too long for the 64-byte (including NUL)
label name buffer, so its defining line records nothing. -/
def c3name : List Char := List.replicate 64 'a'

/-! ## Helper lemmas about `updateFirst` -/

theorem find?_updateFirst_self {α : Type} {p : α → Bool} {f : α → α} {l : List α}
    {a : α} (h : l.find? p = some a) (hf : p (f a) = true) :
    (updateFirst p f l).find? p = some (f a) := by
  induction l with
  | nil => simp at h
  | cons x xs ih =>
    by_cases hx : p x = true
    · rw [List.find?_cons_of_pos _ hx] at h
      injection h with h
      subst h
      simp only [updateFirst, if_pos hx]
      rw [List.find?_cons_of_pos _ hf]
    · rw [List.find?_cons_of_neg _ hx] at h
      simp only [updateFirst, if_neg hx]
      rw [List.find?_cons_of_neg _ hx]
      exact ih h

theorem find?_updateFirst_of_none {α : Type} {p q : α → Bool} {f : α → α}
    {l : List α} {a : α} (hq : l.find? q = none) (hp : l.find? p = some a)
    (hqa : q (f a) = true) :
    (updateFirst p f l).find? q = some (f a) := by
  induction l with
  | nil => simp at hp
  | cons x xs ih =>
    have hqx : ¬ q x = true := by
      intro hcontra
      rw [List.find?_cons_of_pos _ hcontra] at hq
      exact Option.noConfusion hq
    rw [List.find?_cons_of_neg _ hqx] at hq
    by_cases hpx : p x = true
    · rw [List.find?_cons_of_pos _ hpx] at hp
      injection hp with hp
      subst hp
      simp only [updateFirst, if_pos hpx]
      rw [List.find?_cons_of_pos _ hqa]
    · rw [List.find?_cons_of_neg _ hpx] at hp
      simp only [updateFirst, if_neg hpx]
      rw [List.find?_cons_of_neg _ hqx]
      exact ih hq hp

/-! ## Claim C10 -/

/-- Claim C10: for every pattern and subject string, `expr_match_regex`
returns exactly the result of `expr_match_glob` — the advertised regex
matcher *is* the glob matcher. -/
theorem c10_regex_is_glob (p s : List Char) :
    expr_match_regex p s = expr_match_glob p s := rfl

/-! ## Claim C1 -/

/-- Claim C1 (amended): `Done`/`Killed` jobs are terminal with respect to
`shell_bg` (the table is returned unchanged), but `shell_fg`
unconditionally moves the first job with the given pid — whatever its
state, including `Done` and `Killed` — to `Running`/foreground, so they are
not terminal under `shell_fg`. -/
theorem c1_terminality_amended (jobs : List ShellJob) (pid : Int) (j : ShellJob)
    (hfind : shell_job_find_by_pid jobs pid = some j)
    (hterm : j.state = JobState.done ∨ j.state = JobState.killed) :
    shell_bg jobs pid = (OK, jobs) ∧
    shell_fg jobs pid =
      (OK, updateFirst (fun j => j.pid == pid)
        (fun j => { j with state := JobState.running, foreground := true }) jobs) ∧
    shell_job_find_by_pid (shell_fg jobs pid).2 pid =
      some { j with state := JobState.running, foreground := true } := by
  have hstate : ¬ j.state = JobState.stopped := by
    rcases hterm with h | h <;> simp [h]
  have hfind2 : jobs.find? (fun jb => jb.pid == pid) = some j := hfind
  have hp := List.find?_some hfind2
  refine ⟨?_, ?_, ?_⟩
  · simp [shell_bg, hfind, hstate]
  · simp [shell_fg, hfind]
  · have h2 : (shell_fg jobs pid).2 = updateFirst (fun jb => jb.pid == pid)
        (fun jb => { jb with state := JobState.running, foreground := true }) jobs := by
      simp [shell_fg, hfind]
    rw [h2]
    exact find?_updateFirst_self hfind2 (by simpa using hp)

/-- Claim C1 counterexample: `shell_fg` on the pid of a `Done` job moves the
job to `Running` — `Done` is not terminal under shell-initiated job
control. -/
theorem c1_counterexample :
    c1jobs.map ShellJob.state = [JobState.done] ∧
    (shell_fg c1jobs 5).2.map ShellJob.state = [JobState.running] ∧
    JobState.running ≠ JobState.done := by decide

theorem c1_witness :
    shell_bg c1jobs 5 = (OK, c1jobs) ∧
    shell_fg c1jobs 5 =
      (OK, updateFirst (fun j => j.pid == 5)
        (fun j => { j with state := JobState.running, foreground := true }) c1jobs) ∧
    shell_job_find_by_pid (shell_fg c1jobs 5).2 5 =
      some { id := 1, pid := 5, pgid := 5, state := JobState.running,
             command := "sleep 10", foreground := true } :=
  c1_terminality_amended c1jobs 5
    { id := 1, pid := 5, pgid := 5, state := JobState.done,
      command := "sleep 10", foreground := false }
    rfl (Or.inl rfl)

/-! ## Claim C4 -/

/-- Claim C4: for every nonempty argument vector, dispatch invokes the
handler of the first registered command named `argv[0]` with `(argc, argv)`
and records its return value as the new last-exit status; an unregistered
`argv[0]` reports command-not-found and sets last-exit to the reserved code
127, which is distinct from ordinary failure (1) and success (0). -/
theorem c4_dispatch (st : ShellSt) (argv : List String) (hne : argv ≠ []) :
    (∀ cmd, shell_find_command st (argv.headD "") = some cmd →
      shell_dispatch st argv =
        (cmd.func argv.length argv,
         { st with last_exit := cmd.func argv.length argv })) ∧
    (shell_find_command st (argv.headD "") = none →
      shell_dispatch st argv =
        (SHELL_NOT_FOUND, { st with last_exit := SHELL_NOT_FOUND })) ∧
    SHELL_NOT_FOUND ≠ SHELL_ERROR ∧ SHELL_NOT_FOUND ≠ SHELL_OK := by
  refine ⟨?_, ?_, by decide, by decide⟩
  · intro cmd hc
    simp only [shell_dispatch]
    rw [hc]
  · intro hc
    simp only [shell_dispatch]
    rw [hc]

theorem c4_witness :
    shell_dispatch c4st ["true"] = (SHELL_OK, { c4st with last_exit := SHELL_OK }) ∧
    shell_dispatch c4st ["nope"] =
      (SHELL_NOT_FOUND, { c4st with last_exit := SHELL_NOT_FOUND }) := by
  constructor
  · exact (c4_dispatch c4st ["true"] (by simp)).1
      { name := "true", description := "Return success",
        func := fun _ _ => SHELL_OK, builtin := true } rfl
  · exact (c4_dispatch c4st ["nope"] (by simp)).2.1 rfl

/-! ## Claim C5 -/

/-- Claim C5: a defined readonly script variable rejects `script_set_var`
(the context, hence the variable's type and value, is unchanged) and
rejects `script_unset_var` (the variable stays defined), both with
`SYSERR`. -/
theorem c5_readonly (ctx : ScriptCtx) (name : String) (var : ScriptVar)
    (hfind : find_var ctx name = some var) (hro : var.readonly = true)
    (ty : VarType) (v : SVal) :
    script_set_var ctx name ty v = (SYSERR, ctx) ∧
    script_unset_var ctx name = (SYSERR, ctx) := by
  constructor
  · simp [script_set_var, hfind, hro]
  · simp [script_unset_var, hfind, hro]

theorem c5_witness :
    script_set_var c5ctx "x" VarType.tInt (SVal.vInt 9) = (SYSERR, c5ctx) ∧
    script_unset_var c5ctx "x" = (SYSERR, c5ctx) :=
  c5_readonly c5ctx "x"
    { name := "x", type := VarType.tInt, value := SVal.vInt 7,
      readonly := true, exported := false, defined := true }
    rfl rfl VarType.tInt (SVal.vInt 9)

/-! ## Claim C2: history ring buffer -/

theorem hist_inv_step {l : List String} {s : HistState} {c : String}
    (hinv : histInv l s) (hc : c ≠ "") (hlast : l ≠ [] → l.getLast? ≠ some c) :
    histInv (l ++ [c]) (shell_history_add c s) := by
  obtain ⟨hcount, hindex, hslots⟩ := hinv
  have hguard : ¬ (0 < s.history_count ∧
      s.history ((s.history_index - 1 + 50).tmod 50).toNat = c) := by
    rcases eq_or_ne l [] with hl | hl
    · subst hl
      simp only [List.length_nil] at hcount
      rintro ⟨h1, _⟩
      rw [hcount] at h1
      omega
    · rintro ⟨_, h2⟩
      have hn : 1 ≤ l.length := List.length_pos.mpr hl
      have hslot : ((s.history_index - 1 + 50).tmod 50).toNat = (l.length - 1) % 50 := by
        rw [hindex, Int.tmod_eq_emod (by omega) (by omega)]
        omega
      rw [hslot, hslots (l.length - 1) (by omega) (by omega)] at h2
      apply hlast hl
      have hlt : l.length - 1 < l.length := by omega
      rw [List.getD_eq_getElem?_getD, List.getElem?_eq_getElem hlt] at h2
      rw [List.getLast?_eq_getElem?, List.getElem?_eq_getElem hlt]
      simp only [Option.getD_some] at h2
      exact congrArg some h2
  unfold shell_history_add
  rw [if_neg hc, if_neg hguard]
  refine ⟨?_, ?_, ?_⟩
  · show (if s.history_count < 50 then s.history_count + 1 else s.history_count) = _
    rw [hcount]
    simp only [List.length_append, List.length_cons, List.length_nil]
    split <;> omega
  · show (s.history_index + 1).tmod 50 = _
    rw [hindex, Int.tmod_eq_emod (by omega) (by omega)]
    simp only [List.length_append, List.length_cons, List.length_nil]
    omega
  · intro j hj hj50
    simp only [List.length_append, List.length_cons, List.length_nil] at hj hj50
    show (if j % 50 = s.history_index.toNat then c else s.history (j % 50)) = _
    have hidx : s.history_index.toNat = l.length % 50 := by rw [hindex]; omega
    rcases eq_or_lt_of_le (Nat.lt_succ_iff.mp hj) with hje | hjlt
    · rw [if_pos (by rw [hidx, hje]), hje]
      rw [List.getD_append_right l [c] "" l.length (le_refl _)]
      simp
    · rw [if_neg (by rw [hidx]; omega)]
      rw [List.getD_append l [c] "" j hjlt]
      exact hslots j hjlt (by omega)

theorem hist_inv_addAll : ∀ (cmds l : List String) (s : HistState),
    histInv l s → (∀ c ∈ cmds, c ≠ "") →
    (l ++ cmds).Chain' (fun a b => a ≠ b) →
    histInv (l ++ cmds) (shell_history_addAll cmds s) := by
  intro cmds
  induction cmds with
  | nil =>
    intro l s hinv _ _
    simpa [shell_history_addAll] using hinv
  | cons c cs ih =>
    intro l s hinv hne hchain
    have hstep : histInv (l ++ [c]) (shell_history_add c s) := by
      apply hist_inv_step hinv (hne c (by simp))
      intro hl hlastc
      rw [List.chain'_append] at hchain
      exact (hchain.2.2 c (by simp [hlastc]) c (by simp)) rfl
    have hrec := ih (l ++ [c]) (shell_history_add c s) hstep
      (fun d hd => hne d (by simp [hd])) (by simpa using hchain)
    simpa [shell_history_addAll] using hrec

/-- Claim C2: starting from a cleared history, after adding `50 + k`
consecutive-distinct non-empty commands, `get 0` returns the `(k+1)`-th
added command (the oldest surviving one); `get i` fails outside
`[0, count)`; and adding the same command twice consecutively yields a
single entry (the second add is a no-op), for any state respecting the
ring-buffer bounds `0 ≤ index < 50`, `0 ≤ count`. -/
theorem c2_history_ring :
    (∀ (cmds : List String) (k : Nat) (s0 : HistState),
      s0.history_count = 0 → s0.history_index = 0 →
      cmds.length = 50 + k → (∀ c ∈ cmds, c ≠ "") →
      cmds.Chain' (fun a b => a ≠ b) →
      shell_history_get 0 (shell_history_addAll cmds s0) = some (cmds.getD k "")) ∧
    (∀ (s : HistState) (i : Int), (i < 0 ∨ s.history_count ≤ i) →
      shell_history_get i s = none) ∧
    (∀ (s : HistState) (c : String), c ≠ "" →
      0 ≤ s.history_index → s.history_index < 50 → 0 ≤ s.history_count →
      shell_history_add c (shell_history_add c s) = shell_history_add c s) := by
  refine ⟨?_, ?_, ?_⟩
  · intro cmds k s0 hc0 hi0 hlen hne hchain
    have hinv0 : histInv [] s0 := by
      refine ⟨by simpa using hc0, by simpa using hi0, ?_⟩
      intro j hj
      simp at hj
    have hinv := hist_inv_addAll cmds [] s0 hinv0 hne (by simpa using hchain)
    rw [List.nil_append] at hinv
    obtain ⟨hcount, hindex, hslots⟩ := hinv
    rw [hlen] at hcount hindex
    unfold shell_history_get
    rw [if_neg (by rw [hcount]; omega)]
    have hslot : ((shell_history_addAll cmds s0).history_index -
        (shell_history_addAll cmds s0).history_count + 0 + 50).tmod 50 = ((k % 50 : Nat) : Int) := by
      rw [hcount, hindex, Int.tmod_eq_emod (by omega) (by omega)]
      omega
    rw [hslot]
    have hk := hslots k (by omega) (by omega)
    rw [show ((((k % 50 : Nat) : Int)).toNat) = k % 50 by omega, hk]
  · intro s i h
    unfold shell_history_get
    rw [if_pos h]
  · intro s c hc h0 h50 hcnt
    by_cases hdup : 0 < s.history_count ∧
        s.history ((s.history_index - 1 + 50).tmod 50).toNat = c
    · have hs1 : shell_history_add c s = s := by
        unfold shell_history_add
        rw [if_neg hc, if_pos hdup]
      rw [hs1, hs1]
    · have hs1 : shell_history_add c s =
          { history := fun n => if n = s.history_index.toNat then c else s.history n
            history_index := (s.history_index + 1).tmod 50
            history_count := if s.history_count < 50 then s.history_count + 1
                             else s.history_count } := by
        unfold shell_history_add
        rw [if_neg hc, if_neg hdup]
      rw [hs1]
      have hidx : ((((s.history_index + 1).tmod 50) - 1 + 50).tmod 50).toNat
          = s.history_index.toNat := by
        have h1 : (s.history_index + 1).tmod 50 = (s.history_index + 1) % 50 :=
          Int.tmod_eq_emod (by omega) (by omega)
        rw [h1, Int.tmod_eq_emod (by omega) (by omega)]
        omega
      have hcond : 0 < (if s.history_count < 50 then s.history_count + 1
            else s.history_count) ∧
          (fun n => if n = s.history_index.toNat then c else s.history n)
            ((((s.history_index + 1).tmod 50) - 1 + 50).tmod 50).toNat = c := by
        constructor
        · split <;> omega
        · simp [hidx]
      unfold shell_history_add
      rw [if_neg hc, if_pos hcond]

theorem c2_witness :
    shell_history_get 0 (shell_history_addAll c2cmds histInit) = some (c2cmds.getD 0 "") ∧
    shell_history_get 7
      { history := fun _ => "", history_count := 5, history_index := 5 } = none ∧
    shell_history_add "x" (shell_history_add "x" histInit) =
      shell_history_add "x" histInit := by
  refine ⟨?_, ?_, ?_⟩
  · exact c2_history_ring.1 c2cmds 0 histInit rfl rfl (by decide) (by decide)
      (by rw [List.chain'_iff_get]; decide)
  · exact c2_history_ring.2.1 _ 7 (Or.inr (by norm_num))
  · exact c2_history_ring.2.2 histInit "x" (by decide) (by decide) (by decide) (by decide)

/-! ## Claim C6: splitter slot bounds -/

theorem parseLoop_length_le (m : Int) : ∀ (fuel : Nat) (argc : Int) (input : List Char),
    (parseLoop m fuel argc input).length ≤ (m - 1 - argc).toNat := by
  intro fuel
  induction fuel with
  | zero =>
    intro argc input
    simp [parseLoop]
  | succ n ih =>
    intro argc input
    simp only [parseLoop]
    split
    · rename_i hguard
      split
      · simp
      · rename_i c rest1 _
        split
        · simp
        · simp only [List.length_cons]
          have := ih (argc + 1) (tokenLoop false (Char.ofNat 0) (c :: rest1)).2
          omega
    · simp

/-- Claim C6 (amended): for `max_args ≥ 1`, `shell_parse_line` writes at
most `max_args` `argv` slots (tokens plus terminator), and — for every
`max_args` — the final slot written is always the `NULL` terminator.  The
original claim's "all values of max_args" fails at `max_args = 0` (see the
counterexample): the unconditional `argv[argc] = NULL` write needs one
slot. -/
theorem c6_bounds_amended (line : List Char) (m : Int) :
    (1 ≤ m → ((shell_parse_writes line m).length : Int) ≤ m) ∧
    (shell_parse_writes line m).getLast? = some none := by
  constructor
  · intro hm
    have h := parseLoop_length_le m line.length 0 line
    simp only [shell_parse_writes, shell_parse_line, List.length_append,
      List.length_map, List.length_cons, List.length_nil]
    omega
  · simp [shell_parse_writes]

/-- Claim C6 counterexample: with `max_args = 0` the splitter still writes
the terminator slot `argv[0]`, one slot more than the zero it was given. -/
theorem c6_counterexample :
    ¬ ((shell_parse_writes ['x'] 0).length : Int) ≤ 0 := by decide

theorem c6_witness :
    ((shell_parse_writes "a b".toList 32).length : Int) ≤ 32 ∧
    (shell_parse_writes ['x'] 0).getLast? = some none :=
  ⟨(c6_bounds_amended "a b".toList 32).1 (by norm_num),
   (c6_bounds_amended ['x'] 0).2⟩

/-! ## Claim C7: quoting and escaping -/

theorem parseLoop_nil (m : Int) (fuel : Nat) (argc : Int) :
    parseLoop m fuel argc [] = [] := by
  cases fuel <;> simp [parseLoop]

theorem tokenLoop_plain_nil (qc : Char) :
    ∀ (s : List Char),
      (∀ c ∈ s, c ≠ bslash ∧ c ≠ '"' ∧ c ≠ squote ∧ isSpaceTab c = false) →
      tokenLoop false qc s = (s, []) := by
  intro s
  induction s with
  | nil => intro _; simp [tokenLoop]
  | cons x s ih =>
    intro hs
    obtain ⟨hb, hd, hq, hw⟩ := hs x (by simp)
    rw [tokenLoop.eq_def]
    simp only
    rw [if_neg (by simp [hb]), if_neg (by simp [hd, hq]), if_neg (by simp [hw])]
    simp [ih (fun c hc => hs c (by simp [hc]))]

theorem tokenLoop_plain_ws (qc : Char) (w : Char) (rest : List Char)
    (hw : isSpaceTab w = true) :
    ∀ (s : List Char),
      (∀ c ∈ s, c ≠ bslash ∧ c ≠ '"' ∧ c ≠ squote ∧ isSpaceTab c = false) →
      tokenLoop false qc (s ++ w :: rest) = (s, rest) := by
  intro s
  induction s with
  | nil =>
    intro _
    have hwb : w ≠ bslash := by
      intro h; rw [h] at hw; simp [isSpaceTab, bslash, tabChar] at hw
    have hwd : w ≠ '"' := by
      intro h; rw [h] at hw; simp [isSpaceTab, tabChar] at hw
    have hwq : w ≠ squote := by
      intro h; rw [h] at hw; simp [isSpaceTab, squote, tabChar] at hw
    simp only [List.nil_append]
    rw [tokenLoop.eq_def]
    simp only
    rw [if_neg (by simp [hwb]), if_neg (by simp [hwd, hwq]), if_pos (by simp [hw])]
  | cons x s ih =>
    intro hs
    obtain ⟨hb, hd, hq, hwx⟩ := hs x (by simp)
    simp only [List.cons_append]
    rw [tokenLoop.eq_def]
    simp only
    rw [if_neg (by simp [hb]), if_neg (by simp [hd, hq]), if_neg (by simp [hwx])]
    simp [ih (fun c hc => hs c (by simp [hc]))]

theorem tokenLoop_quoted (q : Char) (hq : q = '"' ∨ q = squote) :
    ∀ (s rest : List Char), bslash ∉ s → q ∉ s →
      tokenLoop true q (s ++ q :: rest) =
        ((s ++ (tokenLoop false q rest).1, (tokenLoop false q rest).2) :
          List Char × List Char) := by
  have hqb : q ≠ bslash := by
    rcases hq with h | h <;> (rw [h]; simp [bslash, squote])
  have hqq : (q == '"' || q == squote) = true := by
    rcases hq with h | h <;> simp [h]
  intro s
  induction s with
  | nil =>
    intro rest _ _
    simp only [List.nil_append]
    rw [tokenLoop.eq_def]
    simp only
    rw [if_neg (by simp [hqb]), if_pos hqq]
    simp
  | cons x s ih =>
    intro rest hxb hxq
    have hb : x ≠ bslash := by intro h; exact hxb (by simp [h])
    have hxqne : x ≠ q := by intro h; exact hxq (by simp [h])
    have hsb : bslash ∉ s := fun h => hxb (by simp [h])
    have hsq : q ∉ s := fun h => hxq (by simp [h])
    simp only [List.cons_append]
    rw [tokenLoop.eq_def]
    simp only
    rw [if_neg (by simp [hb])]
    by_cases hxquote : (x == '"' || x == squote) = true
    · rw [if_pos hxquote]
      simp only [Bool.not_true, Bool.false_eq_true, if_false]
      rw [if_neg (by simp [hxqne])]
      simp [ih rest hsb hsq]
    · rw [if_neg hxquote, if_neg (by simp)]
      simp [ih rest hsb hsq]

theorem parseLoop_single (m : Int) (argc : Int) (t : List Char) (ht : t ≠ [])
    (htp : ∀ c ∈ t, c ≠ bslash ∧ c ≠ '"' ∧ c ≠ squote ∧ c ≠ '#' ∧
      isSpaceTab c = false)
    (hargc : argc < m - 1) :
    ∀ fuel : Nat, 1 ≤ fuel → parseLoop m fuel argc t = [t] := by
  intro fuel hfuel
  obtain ⟨x, t', rfl⟩ := List.exists_cons_of_ne_nil ht
  obtain ⟨n, rfl⟩ : ∃ n, fuel = n + 1 := ⟨fuel - 1, by omega⟩
  simp only [parseLoop]
  rw [if_pos ⟨by simp, hargc⟩]
  rw [List.dropWhile_cons_of_neg (by simp [(htp x (by simp)).2.2.2.2])]
  simp only
  rw [if_neg (by simp [(htp x (by simp)).2.2.2.1])]
  rw [tokenLoop_plain_nil (Char.ofNat 0) (x :: t')
    (fun c hc => ⟨(htp c hc).1, (htp c hc).2.1, (htp c hc).2.2.1,
      (htp c hc).2.2.2.2⟩)]
  simp [parseLoop_nil]

/-- Claim C7: the splitter honors quoting and escaping.  The two spec
examples hold; a backslash always escapes the next character — it is
removed and the character kept, for *every* character, outside and inside
quotes; a matching pair of quotes (either style) suppresses
whitespace-splitting, is removed from the token, and everything between the
quotes (other than backslashes and the delimiter itself) is kept verbatim;
unescaped whitespace outside quotes ends the token. -/
theorem c7_quote_escape :
    (shell_parse_line "a \"b c\" d".toList 32 =
      ["a".toList, "b c".toList, "d".toList]) ∧
    (shell_parse_line ['a', bslash, ' ', 'b'] 32 = [['a', ' ', 'b']]) ∧
    (∀ c : Char, shell_parse_line ['a', bslash, c, 'b'] 32 = [['a', c, 'b']]) ∧
    (∀ c : Char, shell_parse_line ['"', bslash, c, '"'] 32 = [[c]]) ∧
    (∀ (q : Char) (s : List Char), (q = '"' ∨ q = squote) →
      bslash ∉ s → q ∉ s → shell_parse_line (q :: s ++ [q]) 32 = [s]) ∧
    (∀ (s t : List Char), s ≠ [] → t ≠ [] →
      (∀ c ∈ s, c ≠ bslash ∧ c ≠ '"' ∧ c ≠ squote ∧ c ≠ '#' ∧ isSpaceTab c = false) →
      (∀ c ∈ t, c ≠ bslash ∧ c ≠ '"' ∧ c ≠ squote ∧ c ≠ '#' ∧ isSpaceTab c = false) →
      shell_parse_line (s ++ ' ' :: t) 32 = [s, t]) := by
  refine ⟨by decide, by decide, fun c => rfl, fun c => rfl, ?_, ?_⟩
  · intro q s hq hsb hsq
    have hqws : isSpaceTab q = false := by
      rcases hq with h | h <;> (rw [h]; simp [isSpaceTab, squote, tabChar])
    have hqb : q ≠ bslash := by
      rcases hq with h | h <;> (rw [h]; simp [bslash, squote])
    have hqhash : (q == '#') = false := by
      rcases hq with h | h <;> (rw [h]; simp [squote])
    have hqq : (q == '"' || q == squote) = true := by
      rcases hq with h | h <;> simp [h]
    have hlen : (q :: s ++ [q]).length = (s.length + 1) + 1 := by
      simp
    unfold shell_parse_line
    rw [hlen]
    simp only [parseLoop]
    rw [if_pos (by constructor <;> simp)]
    rw [show ((q :: s) ++ [q] : List Char) = q :: (s ++ [q]) by simp]
    rw [List.dropWhile_cons_of_neg (by simp [hqws])]
    simp only
    rw [if_neg (by simp [hqhash])]
    have htok : tokenLoop false (Char.ofNat 0) (q :: (s ++ [q])) =
        ((s, []) : List Char × List Char) := by
      rw [tokenLoop.eq_def]
      simp only
      rw [if_neg (by simp [hqb]), if_pos hqq]
      simp only [Bool.not_false, if_true]
      have := tokenLoop_quoted q hq s [] hsb hsq
      rw [this]
      simp [tokenLoop]
    rw [htok]
    simp [parseLoop_nil]
  · intro s t hs ht hsp htp
    obtain ⟨x, s', rfl⟩ := List.exists_cons_of_ne_nil hs
    have hxw : isSpaceTab x = false := (hsp x (by simp)).2.2.2.2
    have hxhash : x ≠ '#' := (hsp x (by simp)).2.2.2.1
    have hlen : ((x :: s') ++ ' ' :: t).length = ((s'.length + t.length) + 1) + 1 := by
      simp
      omega
    unfold shell_parse_line
    rw [hlen]
    generalize hG : s'.length + t.length + 1 = k
    simp only [parseLoop]
    rw [if_pos ⟨by simp, by norm_num⟩]
    rw [show ((x :: s') ++ ' ' :: t) = x :: (s' ++ ' ' :: t) by simp]
    rw [List.dropWhile_cons_of_neg (by simp [hxw])]
    simp only
    rw [if_neg (by simp [hxhash])]
    have htok : tokenLoop false (Char.ofNat 0) (x :: (s' ++ ' ' :: t)) =
        ((x :: s', t) : List Char × List Char) := by
      have := tokenLoop_plain_ws (Char.ofNat 0) ' ' t (by simp [isSpaceTab]) (x :: s')
        (fun c hc => ⟨(hsp c hc).1, (hsp c hc).2.1, (hsp c hc).2.2.1,
          (hsp c hc).2.2.2.2⟩)
      simpa using this
    rw [htok]
    simp only
    rw [parseLoop_single 32 (0 + 1) t ht htp (by norm_num) k (by omega)]

theorem c7_witness :
    shell_parse_line ('"' :: "x y".toList ++ ['"']) 32 = ["x y".toList] ∧
    shell_parse_line ("ab".toList ++ ' ' :: "cd".toList) 32 =
      ["ab".toList, "cd".toList] := by
  constructor
  · exact c7_quote_escape.2.2.2.2.1 '"' "x y".toList (Or.inl rfl)
      (by decide) (by decide)
  · exact c7_quote_escape.2.2.2.2.2 "ab".toList "cd".toList (by decide) (by decide)
      (by decide) (by decide)

/-! ## Claim C3: goto / label recording -/

theorem findIdx?_append_last (p : Char → Bool) (c : Char) (hc : p c = true) :
    ∀ (l : List Char) (i : Nat), (∀ x ∈ l, p x = false) →
      (l ++ [c]).findIdx? p i = some (i + l.length) := by
  intro l
  induction l with
  | nil =>
    intro i _
    simp [hc]
  | cons x xs ih =>
    intro i hl
    simp only [List.cons_append, List.findIdx?_cons]
    rw [if_neg (by simp [hl x (by simp)])]
    rw [ih (i + 1) (fun y hy => hl y (by simp [hy]))]
    simp only [List.length_cons]
    congr 1
    omega

theorem find_label_after_create (ctx : ScriptCtx) (name : String) (n : Int)
    (hcap : (find_label ctx name).isSome ∨ ctx.labels.any fun l => !l.defined) :
    ∃ lbl, find_label (create_label ctx name n).2 name = some lbl ∧
      lbl.line_num = n := by
  by_cases hex : (find_label ctx name).isSome
  · obtain ⟨lbl0, hlbl0⟩ := Option.isSome_iff_exists.mp hex
    have hlbl0' : ctx.labels.find? (fun l => l.defined && l.name == name) = some lbl0 :=
      hlbl0
    have hq := List.find?_some hlbl0'
    refine ⟨{ lbl0 with line_num := n }, ?_, rfl⟩
    unfold create_label
    rw [if_pos hex]
    exact find?_updateFirst_self hlbl0' (by simpa using hq)
  · have hfree : (ctx.labels.any fun l => !l.defined) = true := by
      rcases hcap with h | h
      · exact absurd h hex
      · exact h
    have hfsome : (ctx.labels.find? fun l => !l.defined).isSome :=
      List.find?_isSome.mpr (List.any_eq_true.mp hfree)
    obtain ⟨a, ha⟩ := Option.isSome_iff_exists.mp hfsome
    have hnone : ctx.labels.find? (fun l => l.defined && l.name == name) = none :=
      Option.not_isSome_iff_eq_none.mp hex
    refine ⟨{ a with defined := true, name := name, line_num := n }, ?_, rfl⟩
    unfold create_label
    rw [if_neg hex, if_pos hfree]
    exact find?_updateFirst_of_none hnone ha (by simp)

/-- Claim C3 (amended): `script_goto_label` fails, leaving the context
unchanged, whenever the label table holds no label of that name — and
labels enter the table only when their defining line is executed; once a
line `name:` is executed — *provided* the label could actually be recorded,
i.e. its name is shorter than 64 characters and the label exists already or
a free label slot remains — `goto` succeeds and sets the current line
number to the line number recorded at execution.  The original claim's
unconditional "succeeds once the defining line has been executed" fails for
a 64-character label name (see the counterexample), whose defining line
executes fine but records nothing. -/
theorem c3_goto_label_amended :
    (∀ (ctx : ScriptCtx) (L : String), find_label ctx L = none →
      script_goto_label ctx L = (SYSERR, ctx)) ∧
    (∀ (ctx : ScriptCtx) (L : String) (lbl : ScriptLabel),
      find_label ctx L = some lbl →
      script_goto_label ctx L = (OK, { ctx with line_num := lbl.line_num })) ∧
    (∀ (ctx : ScriptCtx) (name : List Char),
      name ≠ [] → name.length < 64 →
      isSpaceTab (name.headD ' ') = false → name.headD ' ' ≠ '#' →
      (∀ c ∈ name, ¬ c = ':') →
      ((find_label ctx (String.mk name)).isSome ∨
        ctx.labels.any fun l => !l.defined) →
      script_execute_line ctx (name ++ [':']) =
        (OK, (create_label ctx (String.mk name) ctx.line_num).2) ∧
      script_goto_label (create_label ctx (String.mk name) ctx.line_num).2
          (String.mk name) =
        (OK, { (create_label ctx (String.mk name) ctx.line_num).2 with
               line_num := ctx.line_num })) := by
  refine ⟨?_, ?_, ?_⟩
  · intro ctx L h
    simp [script_goto_label, h]
  · intro ctx L lbl h
    simp [script_goto_label, h]
  · intro ctx name hne hlen hws hhash hcolon hcap
    obtain ⟨c0, name', rfl⟩ := List.exists_cons_of_ne_nil hne
    simp only [List.headD_cons] at hws hhash
    constructor
    · unfold script_execute_line execute_line
      rw [show ((c0 :: name') ++ [':'] : List Char) = c0 :: (name' ++ [':']) by simp]
      rw [List.dropWhile_cons_of_neg (by simp [hws])]
      simp only
      rw [if_neg (by simp [hhash])]
      have hfind : (c0 :: (name' ++ [':'])).findIdx? (fun c => c == ':') =
          some (c0 :: name').length := by
        rw [show (c0 :: (name' ++ [':']) : List Char) = (c0 :: name') ++ [':'] by simp]
        rw [findIdx?_append_last _ ':' (by simp) (c0 :: name') 0
          (fun x hx => by simp [hcolon x hx])]
        simp
      rw [hfind]
      simp only
      rw [if_pos (by simp)]
      rw [if_pos (by simp)]
      rw [if_pos hlen]
      rw [show (c0 :: (name' ++ [':'])).take (c0 :: name').length = c0 :: name' by
        rw [show (c0 :: (name' ++ [':']) : List Char) = (c0 :: name') ++ [':'] by simp]
        exact List.take_left _ _]
    · obtain ⟨lbl, hlbl, hn⟩ :=
        find_label_after_create ctx (String.mk (c0 :: name')) ctx.line_num hcap
      simp [script_goto_label, hlbl, hn]

/-- Claim C3 counterexample: the defining line of a 64-character label
executes successfully, yet `goto` to that label still fails afterwards —
"executed at least once" is not sufficient for `goto` to resolve. -/
theorem c3_counterexample :
    (script_execute_line ctxInit (c3name ++ [':'])).1 = OK ∧
    script_goto_label (script_execute_line ctxInit (c3name ++ [':'])).2
        (String.mk c3name) =
      (SYSERR, (script_execute_line ctxInit (c3name ++ [':'])).2) := by
  decide

theorem c3_witness :
    script_goto_label ctxInit "foo" = (SYSERR, ctxInit) ∧
    (script_execute_line ctxInit ("loop".toList ++ [':']) =
      (OK, (create_label ctxInit "loop" ctxInit.line_num).2) ∧
     script_goto_label (create_label ctxInit "loop" ctxInit.line_num).2 "loop" =
      (OK, { (create_label ctxInit "loop" ctxInit.line_num).2 with
             line_num := ctxInit.line_num })) := by
  constructor
  · exact c3_goto_label_amended.1 ctxInit "foo" (by decide)
  · exact c3_goto_label_amended.2.2 ctxInit "loop".toList (by decide) (by decide)
      (by decide) (by decide) (by decide) (Or.inr (by decide))

/-! ## Claim C8: `if`/`while`/`for` fall-through -/

theorem findIdx?_eq_none_of (p : Char → Bool) :
    ∀ (l : List Char) (i : Nat), (∀ x ∈ l, p x = false) → l.findIdx? p i = none := by
  intro l
  induction l with
  | nil => intro i _; simp
  | cons x xs ih =>
    intro i hl
    simp only [List.findIdx?_cons]
    rw [if_neg (by simp [hl x (by simp)])]
    exact ih (i + 1) (fun y hy => hl y (by simp [hy]))

/-- The keyword fall-through of `execute_line`: a line beginning with
`if `/`while `/`for ` that contains no `:` and no `=` (so neither the label
check nor the assignment check captures it) returns `OK` and leaves the
context untouched (the condition evaluators are pure reads). -/
theorem execute_line_keyword_fallthrough (ctx : ScriptCtx) (kw rest : List Char)
    (hkw : kw = "if ".toList ∨ kw = "while ".toList ∨ kw = "for ".toList)
    (hcolon : ∀ c ∈ kw ++ rest, ¬ c = ':')
    (heq : ∀ c ∈ kw ++ rest, ¬ c = '=') :
    script_execute_line ctx (kw ++ rest) = (OK, ctx) := by
  have hc : ∀ (l : List Char), (∀ c ∈ l, ¬ c = ':') →
      l.findIdx? (fun c => c == ':') 0 = none := fun l h =>
    findIdx?_eq_none_of _ l 0 (fun x hx => by simp [h x hx])
  have he : ∀ (l : List Char), (∀ c ∈ l, ¬ c = '=') →
      l.findIdx? (fun c => c == '=') 0 = none := fun l h =>
    findIdx?_eq_none_of _ l 0 (fun x hx => by simp [h x hx])
  rcases hkw with h | h | h
  · subst h
    have hl : ("if ".toList ++ rest : List Char) = 'i' :: 'f' :: ' ' :: rest := rfl
    rw [hl] at hcolon heq ⊢
    unfold script_execute_line execute_line
    rw [List.dropWhile_cons_of_neg (by decide)]
    simp only
    rw [if_neg (by decide), hc _ hcolon]
    unfold execAssignOrKeywords
    rw [he _ heq]
    simp [execKeywords]
  · subst h
    have hl : ("while ".toList ++ rest : List Char) =
        'w' :: 'h' :: 'i' :: 'l' :: 'e' :: ' ' :: rest := rfl
    rw [hl] at hcolon heq ⊢
    unfold script_execute_line execute_line
    rw [List.dropWhile_cons_of_neg (by decide)]
    simp only
    rw [if_neg (by decide), hc _ hcolon]
    unfold execAssignOrKeywords
    rw [he _ heq]
    simp [execKeywords]
  · subst h
    have hl : ("for ".toList ++ rest : List Char) = 'f' :: 'o' :: 'r' :: ' ' :: rest := rfl
    rw [hl] at hcolon heq ⊢
    unfold script_execute_line execute_line
    rw [List.dropWhile_cons_of_neg (by decide)]
    simp only
    rw [if_neg (by decide), hc _ hcolon]
    unfold execAssignOrKeywords
    rw [he _ heq]
    simp [execKeywords]

/-- Claim C8 (amended): for every script line beginning with `if `,
`while `, or `for ` *that contains no colon and no equals sign*, the
executor returns success and leaves the script context unchanged (condition
evaluation is a pure read), and `script_execute`'s loop advances to the
next line unconditionally.  The original claim's "every line" fails for,
e.g., `if 1 = 1`, which the earlier assignment check captures, creating a
variable named `if 1` (see the counterexample). -/
theorem c8_fallthrough_amended :
    (∀ (ctx : ScriptCtx) (kw rest : List Char),
      (kw = "if ".toList ∨ kw = "while ".toList ∨ kw = "for ".toList) →
      (∀ c ∈ kw ++ rest, ¬ c = ':') → (∀ c ∈ kw ++ rest, ¬ c = '=') →
      script_execute_line ctx (kw ++ rest) = (OK, ctx)) ∧
    (∀ (ctx : ScriptCtx) (kw rest : List Char) (ls : List (List Char)),
      (kw = "if ".toList ∨ kw = "while ".toList ∨ kw = "for ".toList) →
      (∀ c ∈ kw ++ rest, ¬ c = ':') → (∀ c ∈ kw ++ rest, ¬ c = '=') →
      ctx.running = true →
      execLoop ctx ((kw ++ rest) :: ls) =
        execLoop { ctx with line_num := ctx.line_num + 1 } ls) := by
  refine ⟨execute_line_keyword_fallthrough, ?_⟩
  intro ctx kw rest ls hkw hcolon heq hrun
  have h1 := execute_line_keyword_fallthrough
    { ctx with line_num := ctx.line_num + 1 } kw rest hkw hcolon heq
  unfold script_execute_line at h1
  simp only [execLoop]
  rw [if_pos hrun, h1]
  simp [OK]

/-- Claim C8 counterexample: the line `if 1 = 1` begins with `if ` but is
captured by the assignment check, which creates a variable named `if 1` —
the context is *not* left unchanged. -/
theorem c8_counterexample :
    (script_execute_line ctxInit "if 1 = 1".toList).2 ≠ ctxInit ∧
    script_var_exists (script_execute_line ctxInit "if 1 = 1".toList).2 "if 1" = true := by
  constructor
  · decide
  · decide

theorem c8_witness :
    script_execute_line ctxInit ("if ".toList ++ "$x".toList) = (OK, ctxInit) ∧
    execLoop { ctxInit with running := true }
        (("while ".toList ++ "1".toList) :: []) =
      execLoop { { ctxInit with running := true } with
                 line_num := { ctxInit with running := true }.line_num + 1 } [] := by
  constructor
  · exact c8_fallthrough_amended.1 ctxInit "if ".toList "$x".toList (Or.inl rfl)
      (by decide) (by decide)
  · exact c8_fallthrough_amended.2 { ctxInit with running := true }
      "while ".toList "1".toList [] (Or.inr (Or.inl rfl)) (by decide) (by decide) rfl

/-! ## Claim C9: the loop stack is never pushed -/

theorem loop_sp_set_var (ctx : ScriptCtx) (n : String) (ty : VarType) (v : SVal) :
    (script_set_var ctx n ty v).2.loop_sp = ctx.loop_sp := by
  unfold script_set_var
  repeat' split
  all_goals rfl

theorem loop_sp_unset_var (ctx : ScriptCtx) (n : String) :
    (script_unset_var ctx n).2.loop_sp = ctx.loop_sp := by
  unfold script_unset_var
  repeat' split
  all_goals rfl

theorem loop_sp_define_func (ctx : ScriptCtx) (n b : String) (np : Int) :
    (script_define_func ctx n b np).2.loop_sp = ctx.loop_sp := by
  unfold script_define_func
  repeat' split
  all_goals rfl

theorem loop_sp_create_label (ctx : ScriptCtx) (n : String) (ln : Int) :
    (create_label ctx n ln).2.loop_sp = ctx.loop_sp := by
  unfold create_label
  repeat' split
  all_goals rfl

theorem loop_sp_goto (ctx : ScriptCtx) (l : String) :
    (script_goto_label ctx l).2.loop_sp = ctx.loop_sp := by
  unfold script_goto_label
  repeat' split
  all_goals rfl

theorem loop_sp_break (ctx : ScriptCtx) :
    (script_break ctx).2.loop_sp = ctx.loop_sp := by
  unfold script_break
  split
  all_goals rfl

theorem loop_sp_continue (ctx : ScriptCtx) :
    (script_continue ctx).2.loop_sp = ctx.loop_sp := by
  unfold script_continue
  split
  all_goals rfl

theorem loop_sp_return (ctx : ScriptCtx) (v : Int) :
    (script_return ctx v).2.loop_sp = ctx.loop_sp := rfl

theorem loop_sp_execKeywords (ctx : ScriptCtx) (p : List Char) :
    (execKeywords ctx p).2.loop_sp = ctx.loop_sp := by
  unfold execKeywords
  simp only []
  repeat' split
  all_goals first
    | rfl
    | apply loop_sp_break
    | apply loop_sp_continue
    | apply loop_sp_return
    | apply loop_sp_goto

theorem loop_sp_execAssignOrKeywords (ctx : ScriptCtx) (p : List Char) :
    (execAssignOrKeywords ctx p).2.loop_sp = ctx.loop_sp := by
  unfold execAssignOrKeywords
  simp only []
  repeat' split
  all_goals first
    | rfl
    | apply loop_sp_set_var
    | apply loop_sp_execKeywords

theorem loop_sp_execute_line (ctx : ScriptCtx) (l : List Char) :
    (execute_line ctx l).2.loop_sp = ctx.loop_sp := by
  unfold execute_line
  simp only []
  repeat' split
  all_goals first
    | rfl
    | apply loop_sp_create_label
    | apply loop_sp_execAssignOrKeywords
    | (rw [loop_sp_execAssignOrKeywords]
       first | rfl | apply loop_sp_create_label)

theorem loop_sp_execLoop : ∀ (ls : List (List Char)) (ctx : ScriptCtx),
    (execLoop ctx ls).loop_sp = ctx.loop_sp := by
  intro ls
  induction ls with
  | nil => intro ctx; rfl
  | cons l ls ih =>
    intro ctx
    unfold execLoop
    split
    · simp only []
      split
      · rw [ih]
        exact loop_sp_execute_line _ _
      · exact loop_sp_execute_line _ _
    · rfl

theorem loop_sp_script_execute (ctx : ScriptCtx) (s : String) :
    (script_execute ctx s).2.loop_sp = ctx.loop_sp := by
  show (execLoop { ctx with running := true, line_num := 0 } (scriptLines s)).loop_sp
      = ctx.loop_sp
  rw [loop_sp_execLoop]

theorem loop_sp_foldl : ∀ (l : List Nat) (ctx : ScriptCtx)
    (g : ScriptCtx → Nat → ScriptCtx),
    (∀ c i, (g c i).loop_sp = c.loop_sp) → (l.foldl g ctx).loop_sp = ctx.loop_sp := by
  intro l
  induction l with
  | nil => intro ctx g _; rfl
  | cons i l ih =>
    intro ctx g hg
    rw [List.foldl_cons, ih (g ctx i) g hg, hg]

theorem loop_sp_bindParams (ctx : ScriptCtx) (n : Int) (argv : List String) :
    (bindParams ctx n argv).loop_sp = ctx.loop_sp := by
  unfold bindParams
  exact loop_sp_foldl _ ctx _ (fun c i => loop_sp_set_var c _ _ _)

theorem loop_sp_call_func (ctx : ScriptCtx) (n : String) (argv : List String) :
    (script_call_func ctx n argv).2.loop_sp = ctx.loop_sp := by
  unfold script_call_func
  split
  · rfl
  · split
    · rfl
    · simp only []
      split
      · rw [loop_sp_script_execute, loop_sp_bindParams]
      · rw [loop_sp_script_execute, loop_sp_bindParams]

/-- Claim C9: in every context reachable from creation/reset through the
public `script_*` operations, the loop stack pointer is 0 — nothing ever
pushes the loop stack — and therefore `script_break` and `script_continue`
always fail, leaving the context unchanged. -/
theorem c9_loop_stack (ctx : ScriptCtx) (h : ScriptReachable ctx) :
    ctx.loop_sp = 0 ∧
    script_break ctx = (SYSERR, ctx) ∧
    script_continue ctx = (SYSERR, ctx) := by
  have h0 : ctx.loop_sp = 0 := by
    induction h with
    | reset c => rfl
    | set_var c n ty v _ ih => rw [loop_sp_set_var]; exact ih
    | unset_var c n _ ih => rw [loop_sp_unset_var]; exact ih
    | define_func c n b np _ ih => rw [loop_sp_define_func]; exact ih
    | call_func c n argv _ ih => rw [loop_sp_call_func]; exact ih
    | goto_label c l _ ih => rw [loop_sp_goto]; exact ih
    | brk c _ ih => rw [loop_sp_break]; exact ih
    | cont c _ ih => rw [loop_sp_continue]; exact ih
    | ret c v _ ih => rw [loop_sp_return]; exact ih
    | exec_line c l _ ih =>
      show (execute_line c l).2.loop_sp = 0
      rw [loop_sp_execute_line]; exact ih
    | exec c s _ ih =>
      show ({ execLoop { c with running := true, line_num := 0 } (scriptLines s)
              with running := false } : ScriptCtx).loop_sp = 0
      show (execLoop { c with running := true, line_num := 0 } (scriptLines s)).loop_sp = 0
      rw [loop_sp_execLoop]; exact ih
  refine ⟨h0, ?_, ?_⟩
  · unfold script_break
    rw [if_pos h0]
  · unfold script_continue
    rw [if_pos h0]

theorem c9_witness :
    ctxInit.loop_sp = 0 ∧
    script_break ctxInit = (SYSERR, ctxInit) ∧
    script_continue ctxInit = (SYSERR, ctxInit) :=
  c9_loop_stack ctxInit (ScriptReachable.reset _)
